import Mathlib

/-!
Verification of contrib/loaders/flash/esp32/stub_flasher.c.

Shallow embedding. Machine integers are Nat with explicit reduction modulo
2^32 where 32-bit wrap matters; RAM byte buffers are total functions from
byte index to byte value; the flash array is a total function from 32-bit
byte address to byte value. The vendor ROM primitives
(esp_rom_spiflash_read / write / erase_sector / erase_area / unlock) are
external trusted collaborators: each call records an event in a trace,
consults an oracle for its result code (true models
ESP_ROM_SPIFLASH_RESULT_OK) and applies its documented effect on success.
The DPORT cache-control registers of both cores are part of the modeled
state. The busy-wait polls on the DCACHE DBUG0 registers only read hardware
state and are modeled as terminating no-ops.
-/

namespace StubFlasher

/-- Two to the power 32; 32-bit values live below this bound. -/
def M : Nat := 4294967296

/-- RAM byte buffer: total function, byte index to byte value. -/
abbrev Buf := Nat → Nat

/-- uint32 subtraction (a - b) mod 2^32, exact for a, b < 2^32. -/
def usub (a b : Nat) : Nat := (a + M - b) % M

/-- Events recorded at each cache-guard call and each vendor ROM call. -/
inductive Ev where
  | cacheDisable (core : Nat)
  | cacheRestore (core : Nat)
  | unlock
  | eraseSector (sec : Nat)
  | eraseArea (addr size : Nat)
  | flashWrite (addr size : Nat)
  | flashRead (addr size : Nat)
deriving DecidableEq

/-- Machine state: flash contents, the DPORT cache-control registers of the
PRO and APP cores, the event trace, and the result oracle for vendor ROM
calls (the n-th ROM call of the run succeeds iff oracle n = true). -/
structure St where
  flash : Nat → Nat
  pro_ctrl : Nat
  pro_ctrl1 : Nat
  app_ctrl : Nat
  app_ctrl1 : Nat
  trace : List Ev
  calls : Nat
  oracle : Nat → Bool

/-- Pointwise function update. -/
def upd (f : Buf) (p v : Nat) : Buf := fun x => if x = p then v else f x

/-- Program n bytes from src into flash starting at byte address a
(flash addresses wrap modulo 2^32). -/
def progBytes (f : Buf) (a : Nat) (src : Buf) : Nat → Buf
  | 0 => f
  | n + 1 => upd (progBytes f a src n) ((a + n) % M) (src n)

/-- Erase n bytes starting at address a to the erased-cell value 0xFF. -/
def eraseBytes (f : Buf) (a n : Nat) : Buf :=
  fun x => if a ≤ x ∧ x < a + n then 255 else f x

/-- Vendor ROM esp_rom_spiflash_read: read n bytes at byte address a.
Returns (result ok, bytes read, new state). -/
def esp_rom_spiflash_read (a n : Nat) (st : St) : Bool × Buf × St :=
  (st.oracle st.calls, fun i => st.flash ((a + i) % M),
   { st with trace := st.trace ++ [Ev.flashRead a n], calls := st.calls + 1 })

/-- Vendor ROM esp_rom_spiflash_write: program n bytes from src at byte
address a. On a failing result the flash effect is not modeled. -/
def esp_rom_spiflash_write (a : Nat) (src : Buf) (n : Nat) (st : St) : Bool × St :=
  (st.oracle st.calls,
   { st with flash := if st.oracle st.calls then progBytes st.flash a src n else st.flash,
             trace := st.trace ++ [Ev.flashWrite a n], calls := st.calls + 1 })

/-- Vendor ROM esp_rom_spiflash_erase_sector: erase the 4096-byte sector
with the given sector number. -/
def esp_rom_spiflash_erase_sector (sec : Nat) (st : St) : Bool × St :=
  (st.oracle st.calls,
   { st with flash := if st.oracle st.calls then eraseBytes st.flash (sec * 4096) 4096 else st.flash,
             trace := st.trace ++ [Ev.eraseSector sec], calls := st.calls + 1 })

/-- Vendor ROM esp_rom_spiflash_erase_area: erase n bytes at address a. -/
def esp_rom_spiflash_erase_area (a n : Nat) (st : St) : Bool × St :=
  (st.oracle st.calls,
   { st with flash := if st.oracle st.calls then eraseBytes st.flash a n else st.flash,
             trace := st.trace ++ [Ev.eraseArea a n], calls := st.calls + 1 })

/-- Vendor ROM esp_rom_spiflash_unlock. -/
def esp_rom_spiflash_unlock (st : St) : Bool × St :=
  (st.oracle st.calls,
   { st with trace := st.trace ++ [Ev.unlock], calls := st.calls + 1 })

def STUB_ERR_OK : Int := 0
def STUB_ERR_FAIL : Int := -1
def STUB_ERR_NOT_SUPPORTED : Int := -2
def STUB_CMD_TEST : Int := 0
def STUB_CMD_FLASH_READ : Int := 1
def STUB_CMD_FLASH_WRITE : Int := 2
def STUB_CMD_FLASH_ERASE : Int := 3
def STUB_CMD_FLASH_TEST : Int := 4
def SPI_FLASH_SEC_SIZE : Nat := 4096
def STUB_FLASH_WRITE_CHUNK_SZ : Nat := 32

/-- cache_mask (stub_flasher.c lines 90-92): the OPSDRAM, DROM0, DRAM1,
IROM0, IRAM1, IRAM0 mask bits of the DPORT cache ctrl1 registers. In the
vendor header soc/dport_reg.h these are bits 0 to 5, so the value is 0x3f. -/
def cache_mask : Nat := 63

/-- Bit position of the cache enable field of DPORT_PRO_CACHE_CTRL_REG in
the vendor header. The proofs below do not depend on the exact position. -/
def DPORT_PRO_CACHE_ENABLE_S : Nat := 3

/-- Bit position of the cache enable field of DPORT_APP_CACHE_CTRL_REG. -/
def DPORT_APP_CACHE_ENABLE_S : Nat := 3

/-- Bitwise complement within 32 bits (the C tilde operator on uint32_t),
exact for x < 2^32. -/
def compl32 (x : Nat) : Nat := (M - 1) - x

/-- GET_PERI_REG_BITS2(reg, mask, shift) = ((reg >> shift) & mask). -/
def GET_PERI_REG_BITS2 (reg mask shift : Nat) : Nat := (reg >>> shift) &&& mask

/-- SET_PERI_REG_BITS(reg, bit_map, value, shift) =
(reg & compl(bit_map << shift)) | ((value & bit_map) << shift). -/
def SET_PERI_REG_BITS (reg bitmap value shift : Nat) : Nat :=
  (reg &&& compl32 (bitmap <<< shift)) ||| ((value &&& bitmap) <<< shift)

/-- stub_spi_flash_disable_cache (lines 94-111). Reads the cache_mask bits
of the ctrl1 register of the given core into the saved state (ret starts at
0 and is or-ed, so it equals the read), busy-waits for the cache idle flag
(a pure hardware read, modeled as a terminating no-op), then clears the
cache enable bit of the ctrl register. Returns (saved_state, new state).
A cacheDisable event is recorded for the ordering claims. -/
def stub_spi_flash_disable_cache (cpuid : Nat) (st : St) : Nat × St :=
  if cpuid = 0 then
    (GET_PERI_REG_BITS2 st.pro_ctrl1 cache_mask 0,
     { st with pro_ctrl := SET_PERI_REG_BITS st.pro_ctrl 1 0 DPORT_PRO_CACHE_ENABLE_S,
               trace := st.trace ++ [Ev.cacheDisable cpuid] })
  else
    (GET_PERI_REG_BITS2 st.app_ctrl1 cache_mask 0,
     { st with app_ctrl := SET_PERI_REG_BITS st.app_ctrl 1 0 DPORT_APP_CACHE_ENABLE_S,
               trace := st.trace ++ [Ev.cacheDisable cpuid] })

/-- stub_spi_flash_restore_cache (lines 113-122): set the cache enable bit
of the ctrl register back to 1, then write the saved state into the
cache_mask field of the ctrl1 register. -/
def stub_spi_flash_restore_cache (cpuid : Nat) (saved_state : Nat) (st : St) : St :=
  if cpuid = 0 then
    { st with pro_ctrl := SET_PERI_REG_BITS st.pro_ctrl 1 1 DPORT_PRO_CACHE_ENABLE_S,
              pro_ctrl1 := SET_PERI_REG_BITS st.pro_ctrl1 cache_mask saved_state 0,
              trace := st.trace ++ [Ev.cacheRestore cpuid] }
  else
    { st with app_ctrl := SET_PERI_REG_BITS st.app_ctrl 1 1 DPORT_APP_CACHE_ENABLE_S,
              app_ctrl1 := SET_PERI_REG_BITS st.app_ctrl1 cache_mask saved_state 0,
              trace := st.trace ++ [Ev.cacheRestore cpuid] }

/-- stub_flash_test (lines 133-164): erase the sector containing the
hard-coded address 0x1d4000, program the 32-byte local pattern buffer
buf[32] = {9,1,2,3,4,5,6,8, 0...} there, read it back into the local
buffer (the read-back and the diagnostic print have no modeled effect). -/
def stub_flash_test (st0 : St) : Int × St :=
  let buf : Buf := fun i => [9, 1, 2, 3, 4, 5, 6, 8].getD i 0
  let flash_addr : Nat := 0x1d4000
  let r0 := esp_rom_spiflash_erase_sector (flash_addr / SPI_FLASH_SEC_SIZE) st0
  if r0.1 = false then (STUB_ERR_FAIL, r0.2)
  else
    let r1 := esp_rom_spiflash_write flash_addr buf 32 r0.2
    if r1.1 = false then (STUB_ERR_FAIL, r1.2)
    else
      let r2 := esp_rom_spiflash_read flash_addr 32 r1.2
      if r2.1 = false then (STUB_ERR_FAIL, r2.2.2)
      else (STUB_ERR_OK, r2.2.2)

/-- Unaligned-head step of stub_flash_read (lines 176-188). If addr is not
word-aligned, read the aligned word containing addr and copy its sz = 4 - k
tail bytes to the front of data (regardless of size, as the C memcpy does),
reduce the remaining length by sz in uint32 arithmetic, and advance
flash_addr to the next aligned boundary. Returns
(raw result ok, data, rd_sz, read so far, flash_addr, state); the non-ok
case returns before the values are used. -/
def flashReadHead (addr : Nat) (data : Buf) (size : Nat) (st0 : St) :
    Bool × Buf × Nat × Nat × Nat × St :=
  let k := addr % 4
  if k = 0 then (true, data, size, 0, addr, st0)
  else
    let r0 := esp_rom_spiflash_read (addr - k) 4 st0
    let sz := 4 - k
    (r0.1, fun i => if i < sz then r0.2.1 (k + i) else data i, usub size sz, sz,
      (addr + 3) % M / 4 * 4, r0.2.2)

/-- Tail step of stub_flash_read (lines 202-210): read one more aligned
word past the bulk and copy its leading size - read bytes. The dump of the
result buffer (lines 212-215) is returned as the third component. -/
def flashReadTail (flash_addr rd_sz2 rdDone2 : Nat) (data2 : Buf) (size : Nat) (st : St) :
    Int × Buf × List Nat × St :=
  let r2 := esp_rom_spiflash_read ((flash_addr + rd_sz2) % M) 4 st
  if r2.1 = false then (STUB_ERR_FAIL, data2, [], r2.2.2)
  else
    let data3 : Buf := fun i => if rdDone2 ≤ i ∧ i < size then r2.2.1 (i - rdDone2) else data2 i
    (STUB_ERR_OK, data3, (List.range 32).map data3, r2.2.2)

/-- stub_flash_read (lines 169-219). k models (flash_addr and 3). The C
code fills the caller buffer data in place; here the updated buffer is
returned. The expression (addr + 3) % M / 4 * 4 models
(flash_addr + 3) and not 3 in uint32, and rd / 4 * 4 models rd and not 3.
The memcpy of the unaligned head copies sz = 4 - k bytes from offset k of
the word read into dummy_buf, regardless of size. The diagnostic dump
(lines 212-215) prints data[0] .. data[31]; the list of printed bytes is
returned as the third component. Returns
(status, final data buffer, dump, final state). -/
def stub_flash_read (addr : Nat) (data : Buf) (size : Nat) (st0 : St) : Int × Buf × List Nat × St :=
  let h := flashReadHead addr data size st0
  if h.1 = false then (STUB_ERR_FAIL, data, [], h.2.2.2.2.2)
  else
    let data1 := h.2.1
    let rd_sz := h.2.2.1
    let rdDone := h.2.2.2.1
    let flash_addr := h.2.2.2.2.1
    let rd_sz2 := if rd_sz % 4 = 0 then rd_sz else rd_sz / 4 * 4
    let r1 := esp_rom_spiflash_read flash_addr rd_sz2 h.2.2.2.2.2
    if r1.1 = false then (STUB_ERR_FAIL, data1, [], r1.2.2)
    else
      let data2 : Buf := fun i =>
        if rdDone ≤ i ∧ i < rdDone + rd_sz2 then r1.2.1 (i - rdDone) else data1 i
      let rdDone2 := rdDone + rd_sz2
      if rdDone2 < size then flashReadTail flash_addr rd_sz2 rdDone2 data2 size r1.2.2
      else (STUB_ERR_OK, data2, (List.range 32).map data2, r1.2.2)

/-- Unaligned-head step of stub_flash_write (lines 229-246): read the
aligned word containing addr, memcpy sz = 4 - k caller bytes over offsets
k..3 of it (regardless of size, as the C memcpy does), write the whole
word back, reduce the remaining length by sz in uint32 arithmetic and
advance flash_addr. Returns (both raw results ok, wr_sz, written,
flash_addr, state); both non-ok cases make the caller return
STUB_ERR_FAIL before the values are used. -/
def flashWriteHead (addr : Nat) (data : Buf) (size : Nat) (st0 : St) :
    Bool × Nat × Nat × Nat × St :=
  let k := addr % 4
  if k = 0 then (true, size, 0, addr, st0)
  else
    let r0 := esp_rom_spiflash_read (addr - k) 4 st0
    if r0.1 = false then (false, size, 0, addr, r0.2.2)
    else
      let sz := 4 - k
      let dummy1 : Buf := fun i => if k ≤ i ∧ i < k + sz then data (i - k) else r0.2.1 i
      let r1 := esp_rom_spiflash_write (addr - k) dummy1 4 r0.2.2
      (r1.1, usub size sz, sz, (addr + 3) % M / 4 * 4, r1.2)

/-- Tail step of stub_flash_write (lines 261-274): read one more aligned
word past the bulk, splice the remaining size - written caller bytes over
its front, and write the word back. -/
def flashWriteTail (flash_addr wr_sz2 written2 : Nat) (data : Buf) (size : Nat) (st : St) :
    Int × St :=
  let r3 := esp_rom_spiflash_read ((flash_addr + wr_sz2) % M) 4 st
  if r3.1 = false then (STUB_ERR_FAIL, r3.2.2)
  else
    let dummy3 : Buf := fun i => if i < size - written2 then data (written2 + i) else r3.2.1 i
    let r4 := esp_rom_spiflash_write ((flash_addr + wr_sz2) % M) dummy3 4 r3.2.2
    if r4.1 = false then (STUB_ERR_FAIL, r4.2)
    else (STUB_ERR_OK, r4.2)

/-- stub_flash_write, synchronous variant, STUB_ASYNC_WRITE_ALGO == 0
(lines 222-276). Unaligned head: read the aligned word containing addr,
memcpy sz = 4 - k caller bytes over offsets k..3 of it (regardless of
size, as in the C), write the word back. Aligned bulk: wr_sz rounded down
to a multiple of 4, computed from the uint32 value size - sz (which wraps
when size < sz). Tail: read-modify-write of one more word when written
bytes are fewer than size. -/
def stub_flash_write (addr : Nat) (data : Buf) (size : Nat) (st0 : St) : Int × St :=
  let h := flashWriteHead addr data size st0
  if h.1 = false then (STUB_ERR_FAIL, h.2.2.2.2)
  else
    let wr_sz := h.2.1
    let written := h.2.2.1
    let flash_addr := h.2.2.2.1
    let wr_sz2 := if wr_sz % 4 = 0 then wr_sz else wr_sz / 4 * 4
    let r2 := esp_rom_spiflash_write flash_addr (fun i => data (written + i)) wr_sz2 h.2.2.2.2
    if r2.1 = false then (STUB_ERR_FAIL, r2.2)
    else
      let written2 := written + wr_sz2
      if written2 < size then flashWriteTail flash_addr wr_sz2 written2 data size r2.2
      else (STUB_ERR_OK, r2.2)

/-- Loop of the streaming stub_flash_write, STUB_ASYNC_WRITE_ALGO variant
(lines 280-322). The producer-owned write cursor is volatile and re-read
fresh on each iteration: iteration t reads wrSeq t. The read cursor is
written only by this loop, so the loop-carried rd equals the stored value
at each re-read; the value stored at rd_p is returned as the second
component. ram is target RAM, the raw write programs wr_sz bytes starting
at RAM address rd. fuel bounds the number of iterations of the unbounded C
loop; running out of fuel exits the loop like its normal termination. -/
def asyncLoop (size : Nat) (wrSeq : Nat → Nat) (ram : Buf) (buf_start buf_end : Nat) :
    Nat → Nat → Nat → Nat → Nat → St → Int × Nat × St
  | 0, _t, _addr, _written, rd, st => (STUB_ERR_OK, rd, st)
  | fuel + 1, t, addr, written, rd, st =>
    let wr := wrSeq t
    if wr = 0 ∨ size ≤ written then (STUB_ERR_OK, rd, st)
    else if wr = rd then asyncLoop size wrSeq ram buf_start buf_end fuel (t + 1) addr written rd st
    else if wr > rd ∧ wr - rd < STUB_FLASH_WRITE_CHUNK_SZ then
      asyncLoop size wrSeq ram buf_start buf_end fuel (t + 1) addr written rd st
    else
      let wr_sz := if wr > rd then STUB_FLASH_WRITE_CHUNK_SZ else usub buf_end rd
      let r := esp_rom_spiflash_write addr (fun i => ram ((rd + i) % M)) wr_sz st
      if r.1 = false then (STUB_ERR_FAIL, 0, r.2)
      else
        let rd2 := (rd + wr_sz) % M
        asyncLoop size wrSeq ram buf_start buf_end fuel (t + 1) ((addr + wr_sz) % M)
          ((written + wr_sz) % M) (if rd2 = buf_end then buf_start else rd2) r.2

/-- Streaming stub_flash_write entry (lines 280-322): wr_p sits at
buf_start, rd_p at buf_start + 4, and the data area begins at
buf_start + 8 (buf_start += 2*sizeof(uint32_t) before the loop); rd0 is
the initial value read from rd_p. -/
def stub_flash_write_async (addr size : Nat) (wrSeq : Nat → Nat) (ram : Buf)
    (buf_start buf_end rd0 fuel : Nat) (st : St) : Int × Nat × St :=
  asyncLoop size wrSeq ram ((buf_start + 8) % M) buf_end fuel 0 addr 0 rd0 st

/-- stub_flash_erase (lines 325-345): round flash_addr down to a sector
boundary (flash_addr and not (4096-1)), round size up to a sector multiple
((size + 4095) and not (4095) in uint32), then call the raw area erase. -/
def stub_flash_erase (addr0 size0 : Nat) (st : St) : Int × St :=
  let flash_addr := if addr0 % SPI_FLASH_SEC_SIZE = 0 then addr0 else addr0 - addr0 % SPI_FLASH_SEC_SIZE
  let size := if size0 % SPI_FLASH_SEC_SIZE = 0 then size0
    else (size0 + (SPI_FLASH_SEC_SIZE - 1)) % M / SPI_FLASH_SEC_SIZE * SPI_FLASH_SEC_SIZE
  let r := esp_rom_spiflash_erase_area flash_addr size st
  if r.1 = false then (STUB_ERR_FAIL, r.2) else (STUB_ERR_OK, r.2)

/-- stub_flash_handler (lines 347-399). core_id models the value of
stub_get_coreid (the PRID bit); the three variadic arguments are
flash_addr, size and buf. Disables the cache of the other core, then of
the executing core, unlocks the flash, dispatches on cmd, and restores
both caches through the single exit funnel, executing core first. -/
def stub_flash_handler (core_id : Nat) (cmd : Int) (flash_addr size : Nat) (buf : Buf)
    (st0 : St) : Int × St :=
  let other_core_id := if core_id = 0 then 1 else 0
  let d1 := stub_spi_flash_disable_cache other_core_id st0
  let d0 := stub_spi_flash_disable_cache core_id d1.2
  let u := esp_rom_spiflash_unlock d0.2
  let body : Int × St :=
    if u.1 = false then (STUB_ERR_FAIL, u.2)
    else if cmd = STUB_CMD_FLASH_READ then
      let r := stub_flash_read flash_addr buf size u.2
      (r.1, r.2.2.2)
    else if cmd = STUB_CMD_FLASH_ERASE then stub_flash_erase flash_addr size u.2
    else if cmd = STUB_CMD_FLASH_WRITE then stub_flash_write flash_addr buf size u.2
    else if cmd = STUB_CMD_FLASH_TEST then stub_flash_test u.2
    else (STUB_ERR_NOT_SUPPORTED, u.2)
  let st5 := stub_spi_flash_restore_cache core_id d0.1 body.2
  let st6 := stub_spi_flash_restore_cache other_core_id d1.1 st5
  (body.1, st6)

/-- stub_main (lines 401-445). The bss zero fill, the uart attach and the
diagnostic prints act outside the modeled state. TEST only logs and leaves
ret at 0; the four flash commands forward to stub_flash_handler; any other
command returns STUB_ERR_NOT_SUPPORTED without touching anything. -/
def stub_main (core_id : Nat) (cmd : Int) (flash_addr size : Nat) (buf : Buf)
    (st : St) : Int × St :=
  if cmd = STUB_CMD_TEST then (0, st)
  else if cmd = STUB_CMD_FLASH_READ ∨ cmd = STUB_CMD_FLASH_ERASE ∨
      cmd = STUB_CMD_FLASH_WRITE ∨ cmd = STUB_CMD_FLASH_TEST then
    stub_flash_handler core_id cmd flash_addr size buf st
  else (STUB_ERR_NOT_SUPPORTED, st)

/-- True on the cache-guard events, false on the vendor ROM events. -/
def isCacheEv : Ev → Bool
  | Ev.cacheDisable _ => true
  | Ev.cacheRestore _ => true
  | _ => false

/-- Trace extension: st2 has the trace of st1 plus new non-cache events.
Every flash operation of the stub satisfies this, which is what the
guard-symmetry claims need. -/
def Ext (st1 st2 : St) : Prop :=
  ∃ l, st2.trace = st1.trace ++ l ∧ ∀ e ∈ l, isCacheEv e = false

/-- All-zero RAM buffer, used as concrete input. -/
def zeroBuf : Buf := fun _ => 0

/-- Concrete machine state with blank flash and all ROM calls succeeding. -/
def stOK : St := ⟨fun _ => 255, 0, 0, 0, 0, [], 0, fun _ => true⟩

/-- Concrete machine state whose ROM calls all fail. -/
def stFail : St := ⟨fun _ => 255, 0, 0, 0, 0, [], 0, fun _ => false⟩

/-- Concrete machine state with nonzero cache-control registers. -/
def stRegs : St := ⟨fun _ => 255, 5, 123456789, 6, 987654321, [], 0, fun _ => true⟩

/-! ## Basic lemmas about the raw flash model -/

theorem upd_self (f : Buf) (p v : Nat) : upd f p v p = v := by simp [upd]

theorem upd_ne (f : Buf) (p v x : Nat) (h : x ≠ p) : upd f p v x = f x := by simp [upd, h]

theorem progBytes_miss (f : Buf) (a : Nat) (src : Buf) :
    ∀ n x, (∀ i, i < n → (a + i) % M ≠ x) → progBytes f a src n x = f x := by
  intro n
  induction n with
  | zero => intro x _; rfl
  | succ m ih =>
    intro x h
    simp only [progBytes]
    rw [upd_ne _ _ _ _ (fun hx => h m (Nat.lt_succ_self m) hx.symm)]
    exact ih x fun i hi => h i (Nat.lt_succ_of_lt hi)

theorem progBytes_hit (f : Buf) (a : Nat) (src : Buf) :
    ∀ n j, n ≤ M → j < n → progBytes f a src n ((a + j) % M) = src j := by
  intro n
  induction n with
  | zero => intro j _ hj; omega
  | succ m ih =>
    intro j hn hj
    simp only [progBytes]
    by_cases hjm : j = m
    · subst hjm; exact upd_self _ _ _
    · rw [upd_ne]
      · exact ih j (by omega) (by omega)
      · intro hcon
        simp only [M] at hcon hn
        omega

/-! ## Bit-level lemmas for the cache guard registers -/

theorem tb_mask_cover (i : Nat) (h : i < 32) :
    (Nat.testBit 4294967232 i || Nat.testBit 63 i) = true := by
  interval_cases i <;> rfl

theorem mask_or_id (x : Nat) (hx : x < M) :
    (x &&& 4294967232) ||| (x &&& 63 &&& 63) = x := by
  apply Nat.eq_of_testBit_eq
  intro i
  simp only [Nat.testBit_lor, Nat.testBit_land]
  rcases Nat.lt_or_ge i 32 with hi | hi
  · have hc := tb_mask_cover i hi
    cases hx1 : x.testBit i <;> cases h63 : Nat.testBit 63 i <;>
      cases hC : Nat.testBit 4294967232 i <;> simp_all
  · have hx0 : x.testBit i = false := by
      apply Nat.testBit_lt_two_pow
      have hM : M ≤ 2 ^ i := by
        calc M = 2 ^ 32 := by norm_num [M]
        _ ≤ 2 ^ i := Nat.pow_le_pow_right (by norm_num) hi
      omega
    simp [hx0]

theorem set_get_roundtrip (x : Nat) (hx : x < M) :
    SET_PERI_REG_BITS x cache_mask (GET_PERI_REG_BITS2 x cache_mask 0) 0 = x := by
  simp only [SET_PERI_REG_BITS, GET_PERI_REG_BITS2, Nat.shiftLeft_zero, Nat.shiftRight_zero,
    cache_mask]
  have h : compl32 63 = 4294967232 := by norm_num [compl32, M]
  rw [h]
  exact mask_or_id x hx

/-! ## Field lemmas for the cache guard state transformers -/

theorem disable_trace (c : Nat) (st : St) :
    (stub_spi_flash_disable_cache c st).2.trace = st.trace ++ [Ev.cacheDisable c] := by
  unfold stub_spi_flash_disable_cache; split <;> rfl

theorem disable_calls (c : Nat) (st : St) :
    (stub_spi_flash_disable_cache c st).2.calls = st.calls := by
  unfold stub_spi_flash_disable_cache; split <;> rfl

theorem disable_oracle (c : Nat) (st : St) :
    (stub_spi_flash_disable_cache c st).2.oracle = st.oracle := by
  unfold stub_spi_flash_disable_cache; split <;> rfl

theorem disable_flash (c : Nat) (st : St) :
    (stub_spi_flash_disable_cache c st).2.flash = st.flash := by
  unfold stub_spi_flash_disable_cache; split <;> rfl

theorem restore_trace (c s : Nat) (st : St) :
    (stub_spi_flash_restore_cache c s st).trace = st.trace ++ [Ev.cacheRestore c] := by
  unfold stub_spi_flash_restore_cache; split <;> rfl

theorem restore_flash (c s : Nat) (st : St) :
    (stub_spi_flash_restore_cache c s st).flash = st.flash := by
  unfold stub_spi_flash_restore_cache; split <;> rfl

/-! ## Claim C4 -/

/-- Claim C4: for either core and any pre-state of the cache-control
registers, restore(core, s) with s the saved_state produced by
disable(core) leaves the per-region cache-enable bitmask registers (the
ctrl1 registers, whose cache_mask field is what saved_state captures)
bit-for-bit equal to their values immediately before the disable call; in
particular regions that were already disabled are not force-enabled. -/
theorem c4_cache_roundtrip (cpuid : Nat) (st : St)
    (h1 : st.pro_ctrl1 < M) (h2 : st.app_ctrl1 < M) :
    (stub_spi_flash_restore_cache cpuid (stub_spi_flash_disable_cache cpuid st).1
        (stub_spi_flash_disable_cache cpuid st).2).pro_ctrl1 = st.pro_ctrl1 ∧
    (stub_spi_flash_restore_cache cpuid (stub_spi_flash_disable_cache cpuid st).1
        (stub_spi_flash_disable_cache cpuid st).2).app_ctrl1 = st.app_ctrl1 := by
  by_cases hc : cpuid = 0 <;>
    simp [stub_spi_flash_disable_cache, stub_spi_flash_restore_cache, hc,
      set_get_roundtrip st.pro_ctrl1 h1, set_get_roundtrip st.app_ctrl1 h2]

theorem c4_cache_roundtrip_witness :
    stRegs.pro_ctrl1 < M ∧ stRegs.app_ctrl1 < M ∧
    ((stub_spi_flash_restore_cache 0 (stub_spi_flash_disable_cache 0 stRegs).1
        (stub_spi_flash_disable_cache 0 stRegs).2).pro_ctrl1 = stRegs.pro_ctrl1 ∧
     (stub_spi_flash_restore_cache 0 (stub_spi_flash_disable_cache 0 stRegs).1
        (stub_spi_flash_disable_cache 0 stRegs).2).app_ctrl1 = stRegs.app_ctrl1) :=
  ⟨by decide, by decide, c4_cache_roundtrip 0 stRegs (by decide) (by decide)⟩

/-! ## Claim C7 -/

/-- Claim C7: any command identifier outside {TEST = 0, FLASH_READ = 1,
FLASH_WRITE = 2, FLASH_ERASE = 3, FLASH_TEST = 4} makes stub_main return
STUB_ERR_NOT_SUPPORTED with the machine state unchanged: no flash access,
no cache-state mutation, no trace events. -/
theorem c7_unrecognized_cmd (core_id : Nat) (cmd : Int) (flash_addr size : Nat) (buf : Buf)
    (st : St) (h0 : cmd ≠ 0) (h1 : cmd ≠ 1) (h2 : cmd ≠ 2) (h3 : cmd ≠ 3) (h4 : cmd ≠ 4) :
    stub_main core_id cmd flash_addr size buf st = (STUB_ERR_NOT_SUPPORTED, st) := by
  simp [stub_main, STUB_CMD_TEST, STUB_CMD_FLASH_READ, STUB_CMD_FLASH_ERASE,
    STUB_CMD_FLASH_WRITE, STUB_CMD_FLASH_TEST, h0, h1, h2, h3, h4]

theorem c7_unrecognized_cmd_witness :
    (5 : Int) ≠ 0 ∧ (5 : Int) ≠ 1 ∧ (5 : Int) ≠ 2 ∧ (5 : Int) ≠ 3 ∧ (5 : Int) ≠ 4 ∧
    stub_main 0 5 16 4 zeroBuf stOK = (STUB_ERR_NOT_SUPPORTED, stOK) :=
  ⟨by decide, by decide, by decide, by decide, by decide,
   c7_unrecognized_cmd 0 5 16 4 zeroBuf stOK (by decide) (by decide) (by decide) (by decide)
     (by decide)⟩

/-! ## Claim C3 -/

/-- Claim C3 counterexample: at addr 4095, size 2 the raw erase primitive
is invoked on the range [0, 4096) (start rounded down, size rounded up),
which does not cover the requested byte at address 4096, so the erased
range is not a superset of [addr, addr + size) and the end address is not
the requested end rounded up. -/
theorem c3_erase_counterexample :
    (stub_flash_erase 4095 2 stOK).2.trace = [Ev.eraseArea 0 4096] ∧
    ¬ (4095 + 2 ≤ 0 + 4096) := by decide

/-- Claim C3 (amended): stub_flash_erase invokes the raw area erase on the
range whose start is addr rounded down to a sector boundary and whose
length is size rounded up to a sector multiple (computed in uint32; the
hypothesis excludes the uint32 overflow of size + 4095). Both are
sector-aligned and the start bounds addr from below, but the erased range
is a superset of [addr, addr + size) only when
addr % 4096 + size ≤ roundup(size) — in particular when addr is
sector-aligned — because the code rounds the size up rather than the end
address. -/
theorem c3_erase_rounding (addr size : Nat) (st : St) (hs : size + 4095 < M) :
    (stub_flash_erase addr size st).2.trace =
      st.trace ++ [Ev.eraseArea (addr - addr % 4096) ((size + 4095) / 4096 * 4096)] ∧
    (addr - addr % 4096) % 4096 = 0 ∧
    (size + 4095) / 4096 * 4096 % 4096 = 0 ∧
    addr - addr % 4096 ≤ addr ∧
    (addr + size ≤ addr - addr % 4096 + (size + 4095) / 4096 * 4096 ↔
      addr % 4096 + size ≤ (size + 4095) / 4096 * 4096) := by
  have hA : (if addr % SPI_FLASH_SEC_SIZE = 0 then addr else addr - addr % SPI_FLASH_SEC_SIZE)
      = addr - addr % 4096 := by
    simp only [SPI_FLASH_SEC_SIZE]; split <;> omega
  have hS : (if size % SPI_FLASH_SEC_SIZE = 0 then size
      else (size + (SPI_FLASH_SEC_SIZE - 1)) % M / SPI_FLASH_SEC_SIZE * SPI_FLASH_SEC_SIZE)
      = (size + 4095) / 4096 * 4096 := by
    simp only [SPI_FLASH_SEC_SIZE, M] at hs ⊢
    split <;> omega
  refine ⟨?_, by omega, by omega, by omega, by omega⟩
  simp only [stub_flash_erase, esp_rom_spiflash_erase_area, hA, hS]
  split <;> rfl

theorem c3_erase_rounding_witness :
    1 + 4095 < M ∧
    ((stub_flash_erase 1 1 stOK).2.trace =
      stOK.trace ++ [Ev.eraseArea (1 - 1 % 4096) ((1 + 4095) / 4096 * 4096)] ∧
    (1 - 1 % 4096) % 4096 = 0 ∧
    (1 + 4095) / 4096 * 4096 % 4096 = 0 ∧
    1 - 1 % 4096 ≤ 1 ∧
    (1 + 1 ≤ 1 - 1 % 4096 + (1 + 4095) / 4096 * 4096 ↔
      1 % 4096 + 1 ≤ (1 + 4095) / 4096 * 4096)) :=
  ⟨by decide, c3_erase_rounding 1 1 stOK (by decide)⟩

/-! ## Claim C6 -/

/-- Claim C6: when esp_rom_spiflash_unlock reports failure, the handler
invokes no flash read, write, erase or test primitive (the trace gains
exactly the two cache disables, the unlock, and the two cache restores,
in that order), both cache states are still restored, and the handler
returns STUB_ERR_FAIL; the caches are disabled before the unlock attempt
and restored after it regardless of the unlock outcome. -/
theorem c6_unlock_failure (core_id : Nat) (cmd : Int) (flash_addr size : Nat) (buf : Buf)
    (st0 : St) (hu : st0.oracle st0.calls = false) (h0 : st0.trace = []) :
    (stub_flash_handler core_id cmd flash_addr size buf st0).1 = STUB_ERR_FAIL ∧
    (stub_flash_handler core_id cmd flash_addr size buf st0).2.trace =
      [Ev.cacheDisable (if core_id = 0 then 1 else 0), Ev.cacheDisable core_id, Ev.unlock,
       Ev.cacheRestore core_id, Ev.cacheRestore (if core_id = 0 then 1 else 0)] := by
  simp [stub_flash_handler, esp_rom_spiflash_unlock, disable_oracle, disable_calls,
    disable_trace, restore_trace, hu, h0, STUB_ERR_FAIL]

theorem c6_unlock_failure_witness :
    stFail.oracle stFail.calls = false ∧ stFail.trace = [] ∧
    ((stub_flash_handler 0 1 16 4 zeroBuf stFail).1 = STUB_ERR_FAIL ∧
     (stub_flash_handler 0 1 16 4 zeroBuf stFail).2.trace =
       [Ev.cacheDisable 1, Ev.cacheDisable 0, Ev.unlock,
        Ev.cacheRestore 0, Ev.cacheRestore 1]) :=
  ⟨by decide, by decide, c6_unlock_failure 0 1 16 4 zeroBuf stFail (by decide) (by decide)⟩

/-! ## Projection lemmas for the vendor ROM primitives -/

theorem esp_read_fst (a n : Nat) (st : St) :
    (esp_rom_spiflash_read a n st).1 = st.oracle st.calls := rfl

theorem esp_read_trace (a n : Nat) (st : St) :
    (esp_rom_spiflash_read a n st).2.2.trace = st.trace ++ [Ev.flashRead a n] := rfl

theorem esp_read_calls (a n : Nat) (st : St) :
    (esp_rom_spiflash_read a n st).2.2.calls = st.calls + 1 := rfl

theorem esp_read_oracle (a n : Nat) (st : St) :
    (esp_rom_spiflash_read a n st).2.2.oracle = st.oracle := rfl

theorem esp_read_flash (a n : Nat) (st : St) :
    (esp_rom_spiflash_read a n st).2.2.flash = st.flash := rfl

theorem esp_write_fst (a : Nat) (src : Buf) (n : Nat) (st : St) :
    (esp_rom_spiflash_write a src n st).1 = st.oracle st.calls := rfl

theorem esp_write_trace (a : Nat) (src : Buf) (n : Nat) (st : St) :
    (esp_rom_spiflash_write a src n st).2.trace = st.trace ++ [Ev.flashWrite a n] := rfl

theorem esp_write_calls (a : Nat) (src : Buf) (n : Nat) (st : St) :
    (esp_rom_spiflash_write a src n st).2.calls = st.calls + 1 := rfl

theorem esp_write_oracle (a : Nat) (src : Buf) (n : Nat) (st : St) :
    (esp_rom_spiflash_write a src n st).2.oracle = st.oracle := rfl

theorem esp_erase_sector_trace (sec : Nat) (st : St) :
    (esp_rom_spiflash_erase_sector sec st).2.trace = st.trace ++ [Ev.eraseSector sec] := rfl

theorem esp_erase_area_trace (a n : Nat) (st : St) :
    (esp_rom_spiflash_erase_area a n st).2.trace = st.trace ++ [Ev.eraseArea a n] := rfl

theorem esp_unlock_trace (st : St) :
    (esp_rom_spiflash_unlock st).2.trace = st.trace ++ [Ev.unlock] := rfl

/-! ## Trace-shape lemmas: every flash operation only appends non-cache events -/

theorem Ext.rfl0 (st : St) : Ext st st := ⟨[], by simp, by simp⟩

theorem Ext.trans {s1 s2 s3 : St} (h12 : Ext s1 s2) (h23 : Ext s2 s3) : Ext s1 s3 := by
  obtain ⟨l1, e1, f1⟩ := h12
  obtain ⟨l2, e2, f2⟩ := h23
  refine ⟨l1 ++ l2, by simp [e2, e1], ?_⟩
  intro e he
  rcases List.mem_append.mp he with h | h
  · exact f1 e h
  · exact f2 e h

theorem ext_esp_read (a n : Nat) (st : St) : Ext st (esp_rom_spiflash_read a n st).2.2 :=
  ⟨[Ev.flashRead a n], rfl, by simp [isCacheEv]⟩

theorem ext_esp_write (a : Nat) (src : Buf) (n : Nat) (st : St) :
    Ext st (esp_rom_spiflash_write a src n st).2 :=
  ⟨[Ev.flashWrite a n], rfl, by simp [isCacheEv]⟩

theorem ext_esp_erase_sector (sec : Nat) (st : St) :
    Ext st (esp_rom_spiflash_erase_sector sec st).2 :=
  ⟨[Ev.eraseSector sec], rfl, by simp [isCacheEv]⟩

theorem ext_esp_erase_area (a n : Nat) (st : St) :
    Ext st (esp_rom_spiflash_erase_area a n st).2 :=
  ⟨[Ev.eraseArea a n], rfl, by simp [isCacheEv]⟩

theorem ext_esp_unlock (st : St) : Ext st (esp_rom_spiflash_unlock st).2 :=
  ⟨[Ev.unlock], rfl, by simp [isCacheEv]⟩

theorem ext_readHead (addr : Nat) (data : Buf) (size : Nat) (st : St) :
    Ext st (flashReadHead addr data size st).2.2.2.2.2 := by
  unfold flashReadHead
  dsimp only
  split_ifs
  · exact Ext.rfl0 st
  · exact ext_esp_read _ _ _

theorem ext_readTail (fa rs rd : Nat) (d : Buf) (size : Nat) (st : St) :
    Ext st (flashReadTail fa rs rd d size st).2.2.2 := by
  unfold flashReadTail
  dsimp only
  split_ifs <;> exact ext_esp_read _ _ _

theorem ext_read (addr : Nat) (data : Buf) (size : Nat) (st : St) :
    Ext st (stub_flash_read addr data size st).2.2.2 := by
  unfold stub_flash_read
  dsimp only
  split_ifs <;>
    first
      | exact ext_readHead addr data size st
      | exact (ext_readHead addr data size st).trans (ext_esp_read _ _ _)
      | exact ((ext_readHead addr data size st).trans (ext_esp_read _ _ _)).trans
          (ext_readTail _ _ _ _ _ _)

theorem ext_writeHead (addr : Nat) (data : Buf) (size : Nat) (st : St) :
    Ext st (flashWriteHead addr data size st).2.2.2.2 := by
  unfold flashWriteHead
  dsimp only
  split_ifs <;>
    first
      | exact Ext.rfl0 st
      | exact ext_esp_read _ _ _
      | exact (ext_esp_read _ _ _).trans (ext_esp_write _ _ _ _)

theorem ext_writeTail (fa ws wr : Nat) (d : Buf) (size : Nat) (st : St) :
    Ext st (flashWriteTail fa ws wr d size st).2 := by
  unfold flashWriteTail
  dsimp only
  split_ifs <;>
    first
      | exact ext_esp_read _ _ _
      | exact (ext_esp_read _ _ _).trans (ext_esp_write _ _ _ _)

theorem ext_write (addr : Nat) (data : Buf) (size : Nat) (st : St) :
    Ext st (stub_flash_write addr data size st).2 := by
  unfold stub_flash_write
  dsimp only
  split_ifs <;>
    first
      | exact ext_writeHead addr data size st
      | exact (ext_writeHead addr data size st).trans (ext_esp_write _ _ _ _)
      | exact ((ext_writeHead addr data size st).trans (ext_esp_write _ _ _ _)).trans
          (ext_writeTail _ _ _ _ _ _)

theorem ext_erase (addr size : Nat) (st : St) : Ext st (stub_flash_erase addr size st).2 := by
  unfold stub_flash_erase
  dsimp only
  split_ifs <;> exact ext_esp_erase_area _ _ _

theorem ext_test (st : St) : Ext st (stub_flash_test st).2 := by
  unfold stub_flash_test
  dsimp only
  split_ifs <;>
    first
      | exact ext_esp_erase_sector _ _
      | exact (ext_esp_erase_sector _ _).trans (ext_esp_write _ _ _ _)
      | exact ((ext_esp_erase_sector _ _).trans (ext_esp_write _ _ _ _)).trans
          (ext_esp_read _ _ _)

/-- The five-way command dispatch of the handler body only appends
non-cache events. -/
theorem ext_dispatch (cmd : Int) (fa sz : Nat) (buf : Buf) (uSt : St) :
    Ext uSt (if cmd = STUB_CMD_FLASH_READ then
        ((stub_flash_read fa buf sz uSt).1, (stub_flash_read fa buf sz uSt).2.2.2)
      else if cmd = STUB_CMD_FLASH_ERASE then stub_flash_erase fa sz uSt
      else if cmd = STUB_CMD_FLASH_WRITE then stub_flash_write fa buf sz uSt
      else if cmd = STUB_CMD_FLASH_TEST then stub_flash_test uSt
      else (STUB_ERR_NOT_SUPPORTED, uSt)).2 := by
  split_ifs <;>
    first
      | exact ext_read fa buf sz uSt
      | exact ext_erase fa sz uSt
      | exact ext_write fa buf sz uSt
      | exact ext_test uSt
      | exact Ext.rfl0 uSt

theorem esp_erase_sector_fst (sec : Nat) (st : St) :
    (esp_rom_spiflash_erase_sector sec st).1 = st.oracle st.calls := rfl

theorem esp_erase_sector_calls (sec : Nat) (st : St) :
    (esp_rom_spiflash_erase_sector sec st).2.calls = st.calls + 1 := rfl

theorem esp_erase_sector_oracle (sec : Nat) (st : St) :
    (esp_rom_spiflash_erase_sector sec st).2.oracle = st.oracle := rfl

theorem esp_unlock_fst (st : St) :
    (esp_rom_spiflash_unlock st).1 = st.oracle st.calls := rfl

theorem esp_unlock_calls (st : St) :
    (esp_rom_spiflash_unlock st).2.calls = st.calls + 1 := rfl

theorem esp_unlock_oracle (st : St) :
    (esp_rom_spiflash_unlock st).2.oracle = st.oracle := rfl

theorem esp_unlock_flash (st : St) :
    (esp_rom_spiflash_unlock st).2.flash = st.flash := rfl

theorem esp_write_flash_ok (a : Nat) (src : Buf) (n : Nat) (st : St)
    (h : st.oracle st.calls = true) :
    (esp_rom_spiflash_write a src n st).2.flash = progBytes st.flash a src n := by
  simp [esp_rom_spiflash_write, h]

theorem esp_erase_sector_flash_ok (sec : Nat) (st : St) (h : st.oracle st.calls = true) :
    (esp_rom_spiflash_erase_sector sec st).2.flash = eraseBytes st.flash (sec * 4096) 4096 := by
  simp [esp_rom_spiflash_erase_sector, h]

/-! ## Claim C5 -/

/-- The handler body: unlock gate plus the five-way command dispatch.
It only appends non-cache events. -/
theorem ext_body (cmd : Int) (fa sz : Nat) (buf : Buf) (uok : Bool) (uSt : St) :
    Ext uSt (if uok = false then (STUB_ERR_FAIL, uSt)
      else if cmd = STUB_CMD_FLASH_READ then
        ((stub_flash_read fa buf sz uSt).1, (stub_flash_read fa buf sz uSt).2.2.2)
      else if cmd = STUB_CMD_FLASH_ERASE then stub_flash_erase fa sz uSt
      else if cmd = STUB_CMD_FLASH_WRITE then stub_flash_write fa buf sz uSt
      else if cmd = STUB_CMD_FLASH_TEST then stub_flash_test uSt
      else (STUB_ERR_NOT_SUPPORTED, uSt)).2 := by
  cases uok
  · simpa using Ext.rfl0 uSt
  · simpa using ext_dispatch cmd fa sz buf uSt

/-- Claim C5: every invocation of stub_flash_handler, on every command
branch (including the unrecognized default) and every primitive outcome
(including unlock failure), first disables the sibling cache then the
executing cache, performs only non-cache events in between (all flash
accesses are in mid), and restores each cache exactly once, executing core
first and sibling second, as the last two events before returning. -/
theorem c5_guard_symmetry (core_id : Nat) (cmd : Int) (flash_addr size : Nat) (buf : Buf)
    (st0 : St) (h0 : st0.trace = []) :
    ∃ mid, (stub_flash_handler core_id cmd flash_addr size buf st0).2.trace =
      Ev.cacheDisable (if core_id = 0 then 1 else 0) :: Ev.cacheDisable core_id ::
        (mid ++ [Ev.cacheRestore core_id, Ev.cacheRestore (if core_id = 0 then 1 else 0)]) ∧
      ∀ e ∈ mid, isCacheEv e = false := by
  unfold stub_flash_handler
  dsimp only
  obtain ⟨l, hl, hfree⟩ := ext_body cmd flash_addr size buf
    (esp_rom_spiflash_unlock (stub_spi_flash_disable_cache core_id
      (stub_spi_flash_disable_cache (if core_id = 0 then 1 else 0) st0).2).2).1
    (esp_rom_spiflash_unlock (stub_spi_flash_disable_cache core_id
      (stub_spi_flash_disable_cache (if core_id = 0 then 1 else 0) st0).2).2).2
  refine ⟨Ev.unlock :: l, ?_, ?_⟩
  · rw [restore_trace, restore_trace, hl, esp_unlock_trace, disable_trace, disable_trace, h0]
    simp
  · intro e he
    rcases List.mem_cons.mp he with h | h
    · subst h; rfl
    · exact hfree e h

theorem c5_guard_symmetry_witness :
    stOK.trace = [] ∧
    ∃ mid, (stub_flash_handler 0 9 16 4 zeroBuf stOK).2.trace =
      Ev.cacheDisable (if (0 : Nat) = 0 then 1 else 0) :: Ev.cacheDisable 0 ::
        (mid ++ [Ev.cacheRestore 0, Ev.cacheRestore (if (0 : Nat) = 0 then 1 else 0)]) ∧
      ∀ e ∈ mid, isCacheEv e = false :=
  ⟨rfl, c5_guard_symmetry 0 9 16 4 zeroBuf stOK rfl⟩

/-! ## Claim C9 -/

/-- Claim C9: with all primitives succeeding, the FLASH_TEST command is
destructive and fixed-location: whatever address, size and buffer the
caller supplies, the handler erases the 4096-byte sector number
468 = 0x1d4000 / 4096 (the sector containing the hard-coded address
0x1d4000) and programs the fixed 32-byte pattern 9,1,2,3,4,5,6,8,0,...,0
at 0x1d4000, as both the event trace and the final flash contents show. -/
theorem c9_selftest_fixed (core_id : Nat) (flash_addr size : Nat) (buf : Buf) (st0 : St)
    (hor : ∀ n, st0.oracle n = true) (h0 : st0.trace = []) :
    (stub_flash_handler core_id 4 flash_addr size buf st0).2.trace =
      [Ev.cacheDisable (if core_id = 0 then 1 else 0), Ev.cacheDisable core_id, Ev.unlock,
       Ev.eraseSector 468, Ev.flashWrite 0x1d4000 32, Ev.flashRead 0x1d4000 32,
       Ev.cacheRestore core_id, Ev.cacheRestore (if core_id = 0 then 1 else 0)] ∧
    ∀ i, i < 32 →
      (stub_flash_handler core_id 4 flash_addr size buf st0).2.flash (0x1d4000 + i) =
        [9, 1, 2, 3, 4, 5, 6, 8].getD i 0 := by
  unfold stub_flash_handler stub_flash_test
  dsimp only
  refine ⟨?_, ?_⟩
  · simp [esp_unlock_fst, esp_unlock_calls, esp_unlock_oracle,
      esp_unlock_trace, esp_erase_sector_fst, esp_erase_sector_calls, esp_erase_sector_oracle,
      esp_erase_sector_trace, esp_write_fst, esp_write_calls, esp_write_oracle, esp_write_trace,
      esp_read_fst, esp_read_calls, esp_read_oracle, esp_read_trace,
      disable_oracle, disable_calls, disable_trace, restore_trace,
      hor, STUB_CMD_FLASH_READ, STUB_CMD_FLASH_ERASE, STUB_CMD_FLASH_WRITE, STUB_CMD_FLASH_TEST,
      SPI_FLASH_SEC_SIZE, h0]
  · intro i hi
    simp only [esp_unlock_fst, esp_unlock_calls, esp_unlock_oracle, esp_unlock_flash,
      esp_erase_sector_fst, esp_erase_sector_calls, esp_erase_sector_oracle,
      esp_write_fst, esp_write_calls, esp_write_oracle,
      esp_read_fst, esp_read_calls, esp_read_oracle, esp_read_flash,
      disable_oracle, disable_calls, disable_flash, restore_flash, hor,
      STUB_CMD_FLASH_READ, STUB_CMD_FLASH_ERASE, STUB_CMD_FLASH_WRITE, STUB_CMD_FLASH_TEST,
      SPI_FLASH_SEC_SIZE]
    simp only [show ((4 : Int) = 1) = False by simp, show ((4 : Int) = 3) = False by simp,
      show ((4 : Int) = 2) = False by simp, show ((4 : Int) = 4) = True by simp,
      show (true = false) = False by simp, if_false, if_true]
    simp only [esp_read_flash]
    rw [esp_write_flash_ok, esp_erase_sector_flash_ok]
    · have hlt : (0x1d4000 : Nat) + i = (0x1d4000 + i) % M := by
        simp only [M]; omega
      rw [hlt]
      rw [progBytes_hit _ 1916928 _ 32 i (by simp only [M]; omega) hi]
    all_goals simp [esp_erase_sector_oracle, esp_erase_sector_calls, disable_oracle,
      disable_calls, esp_unlock_oracle, esp_unlock_calls, hor]

theorem c9_selftest_fixed_witness :
    (∀ n, stOK.oracle n = true) ∧ stOK.trace = [] ∧
    ((stub_flash_handler 3 4 16 4 zeroBuf stOK).2.trace =
      [Ev.cacheDisable (if (3 : Nat) = 0 then 1 else 0), Ev.cacheDisable 3, Ev.unlock,
       Ev.eraseSector 468, Ev.flashWrite 0x1d4000 32, Ev.flashRead 0x1d4000 32,
       Ev.cacheRestore 3, Ev.cacheRestore (if (3 : Nat) = 0 then 1 else 0)] ∧
    ∀ i, i < 32 →
      (stub_flash_handler 3 4 16 4 zeroBuf stOK).2.flash (0x1d4000 + i) =
        [9, 1, 2, 3, 4, 5, 6, 8].getD i 0) :=
  ⟨fun _ => rfl, rfl, c9_selftest_fixed 3 16 4 zeroBuf stOK (fun _ => rfl) rfl⟩

/-! ## Claim C10 -/

/-- Claim C10: on every successful return of stub_flash_read, the
diagnostic dump reads destination buffer indices 0 through 31 regardless of
the requested size, so for every size below 32 the dump contains
destination bytes beyond the size bytes the caller asked to fill. -/
theorem c10_dump_32 (addr : Nat) (data : Buf) (size : Nat) (st : St)
    (ret : Int) (dOut : Buf) (dump : List Nat) (stF : St)
    (hEq : stub_flash_read addr data size st = (ret, dOut, dump, stF))
    (hok : ret = STUB_ERR_OK) :
    dump = (List.range 32).map dOut ∧
    ∀ j, size ≤ j → j < 32 → dOut j ∈ dump := by
  subst hok
  unfold stub_flash_read flashReadTail at hEq
  dsimp only at hEq
  split_ifs at hEq <;>
    simp only [Prod.mk.injEq, STUB_ERR_FAIL, STUB_ERR_OK] at hEq <;>
    first
      | (exact absurd hEq.1 (by decide))
      | (obtain ⟨-, hd, hm, -⟩ := hEq
         refine ⟨by rw [← hm, ← hd], ?_⟩
         intro j hsj hj32
         rw [← hm, ← hd]
         exact List.mem_map.mpr ⟨j, List.mem_range.mpr hj32, rfl⟩)

theorem c10_dump_32_witness :
    (stub_flash_read 0 zeroBuf 4 stOK).1 = STUB_ERR_OK ∧
    ((stub_flash_read 0 zeroBuf 4 stOK).2.2.1 =
        (List.range 32).map (stub_flash_read 0 zeroBuf 4 stOK).2.1 ∧
      ∀ j, 4 ≤ j → j < 32 →
        (stub_flash_read 0 zeroBuf 4 stOK).2.1 j ∈ (stub_flash_read 0 zeroBuf 4 stOK).2.2.1) :=
  ⟨by decide, c10_dump_32 0 zeroBuf 4 stOK _ _ _ _ rfl (by decide)⟩

/-! ## Claim C8 -/

theorem asyncLoop_fail (size : Nat) (wrSeq : Nat → Nat) (ram : Buf) (bs be : Nat) :
    ∀ fuel t addr written rd st,
      (asyncLoop size wrSeq ram bs be fuel t addr written rd st).1 = STUB_ERR_FAIL →
      (asyncLoop size wrSeq ram bs be fuel t addr written rd st).2.1 = 0 ∧
      ∃ a n, (asyncLoop size wrSeq ram bs be fuel t addr written rd st).2.2.trace.getLast?
        = some (Ev.flashWrite a n) := by
  intro fuel
  induction fuel with
  | zero =>
    intro t addr written rd st hf
    exact absurd hf (by simp [asyncLoop, STUB_ERR_OK, STUB_ERR_FAIL])
  | succ m ih =>
    intro t addr written rd st hf
    rw [asyncLoop] at hf ⊢
    dsimp only at hf ⊢
    by_cases c1 : wrSeq t = 0 ∨ size ≤ written
    · rw [if_pos c1] at hf
      exact absurd hf (by simp [STUB_ERR_OK, STUB_ERR_FAIL])
    · rw [if_neg c1] at hf ⊢
      by_cases c2 : wrSeq t = rd
      · rw [if_pos c2] at hf ⊢
        exact ih _ _ _ _ _ hf
      · rw [if_neg c2] at hf ⊢
        by_cases c3 : wrSeq t > rd ∧ wrSeq t - rd < STUB_FLASH_WRITE_CHUNK_SZ
        · rw [if_pos c3] at hf ⊢
          exact ih _ _ _ _ _ hf
        · rw [if_neg c3] at hf ⊢
          by_cases c4 : (esp_rom_spiflash_write addr
              (fun i => ram ((rd + i) % M))
              (if wrSeq t > rd then STUB_FLASH_WRITE_CHUNK_SZ else usub be rd) st).1 = false
          · rw [if_pos c4] at hf ⊢
            refine ⟨rfl, ?_⟩
            refine ⟨addr, if wrSeq t > rd then STUB_FLASH_WRITE_CHUNK_SZ else usub be rd, ?_⟩
            rw [esp_write_trace]
            exact List.getLast?_concat _
          · rw [if_neg c4] at hf ⊢
            exact ih _ _ _ _ _ hf

/-- Claim C8: in the streaming (STUB_ASYNC_WRITE_ALGO build)
stub_flash_write, whenever the raw flash programming call reports non-OK
the function stores the sentinel value 0 into the read cursor at the head
of the ring buffer and returns STUB_ERR_FAIL immediately: the failing
programming call is the last event of the run, so no further programming
is attempted in that invocation. -/
theorem c8_async_fail (addr size : Nat) (wrSeq : Nat → Nat) (ram : Buf)
    (bs be rd0 fuel : Nat) (st : St)
    (hf : (stub_flash_write_async addr size wrSeq ram bs be rd0 fuel st).1 = STUB_ERR_FAIL) :
    (stub_flash_write_async addr size wrSeq ram bs be rd0 fuel st).2.1 = 0 ∧
    ∃ a n, (stub_flash_write_async addr size wrSeq ram bs be rd0 fuel st).2.2.trace.getLast?
      = some (Ev.flashWrite a n) := by
  unfold stub_flash_write_async at hf ⊢
  exact asyncLoop_fail size wrSeq ram ((bs + 8) % M) be fuel 0 addr 0 rd0 st hf

theorem c8_async_fail_witness :
    (stub_flash_write_async 0 100 (fun _ => 40) zeroBuf 0 64 0 1 stFail).1 = STUB_ERR_FAIL ∧
    ((stub_flash_write_async 0 100 (fun _ => 40) zeroBuf 0 64 0 1 stFail).2.1 = 0 ∧
      ∃ a n, (stub_flash_write_async 0 100 (fun _ => 40) zeroBuf 0 64 0 1
        stFail).2.2.trace.getLast? = some (Ev.flashWrite a n)) :=
  ⟨by decide, c8_async_fail 0 100 (fun _ => 40) zeroBuf 0 64 0 1 stFail (by decide)⟩


/-! ## Value-level lemmas for Claim C1 and Claim C2 -/

theorem esp_read_bytes (a n : Nat) (st : St) (i : Nat) :
    (esp_rom_spiflash_read a n st).2.1 i = st.flash ((a + i) % M) := rfl

set_option maxHeartbeats 1000000 in
/-- With every raw primitive succeeding, stub_flash_read fills byte j of
the destination buffer with the flash byte at address addr + j, for every
requested j < size, every 32-bit addr and size, and every alignment. -/
theorem read_fills (addr : Nat) (dest : Buf) (size : Nat) (st : St)
    (hor : ∀ n, st.oracle n = true) (ha : addr < M) (hs : size < M) (j : Nat) (hj : j < size) :
    (stub_flash_read addr dest size st).2.1 j = st.flash ((addr + j) % M) := by
  unfold stub_flash_read flashReadHead flashReadTail
  dsimp only
  by_cases hk : addr % 4 = 0 <;>
    simp only [hk, if_true, if_false, ite_true, ite_false, esp_read_fst, esp_read_calls,
      esp_read_oracle, esp_read_flash, hor, Nat.sub_zero, Nat.zero_add, Nat.add_zero] <;>
    simp only [show (true = false) = False by simp, if_false, ite_false, usub] <;>
    split_ifs <;> (try dsimp only) <;> (try simp only [esp_read_bytes, esp_read_flash]) <;>
      (try split_ifs) <;> (simp only [M] at *) <;>
      first
        | (refine congrArg st.flash ?_; omega)
        | (exfalso; omega)
        | omega


/-- Closed form of progBytes: for addresses below 2^32 the byte at x takes
the source byte at offset (x - a) mod 2^32 when that offset is inside the
programmed range, and is untouched otherwise. -/
theorem progBytes_eval (f : Buf) (a : Nat) (src : Buf) (n : Nat) (x : Nat)
    (hn : n ≤ M) (hx : x < M) :
    progBytes f a src n x =
      if (x + M - a % M) % M < n then src ((x + M - a % M) % M) else f x := by
  by_cases hoff : (x + M - a % M) % M < n
  · rw [if_pos hoff]
    have hx_eq : x = (a + (x + M - a % M) % M) % M := by
      simp only [M] at *; omega
    have hh := progBytes_hit f a src n ((x + M - a % M) % M) hn hoff
    rw [← hx_eq] at hh
    exact hh
  · rw [if_neg hoff]
    apply progBytes_miss
    intro i hi hcon
    apply hoff
    have : (x + M - a % M) % M = i := by
      simp only [M] at *; omega
    omega

end StubFlasher